import Mathlib

/-!
Shallow embedding of `newsletter.py` (Madison Safety Newsletter Generator)
and verification of the specification claims about it.

Strings are modelled as `List Char` (`Str`); Python dictionaries with
possibly-missing keys are modelled as structures with `Option` fields;
network / file-system effects are out of scope, so every function takes the
externally obtained data (downloaded text lines, API responses, the clock)
as explicit parameters.
-/

namespace Newsletter

abbrev Str := List Char

/-- Left brace written via its code point, the literal brace of the template tokens. -/
def lbrace : Char := Char.ofNat 123

/-- Right brace written via its code point. -/
def rbrace : Char := Char.ofNat 125

/-! ### Python character classes (ASCII fragment, as used by `re` and `str`) -/

/-- Class d (a digit) of Python regular expressions. -/
def isDigitPy (c : Char) : Bool := decide (48 ≤ c.toNat) && decide (c.toNat ≤ 57)

/-- Class s of Python regular expressions (ASCII whitespace: space, tab, newline, vertical tab, form feed, carriage return). -/
def isSpacePy (c : Char) : Bool :=
  c == ' ' || c == '\t' || c == '\n' || c == (Char.ofNat 11) || c == (Char.ofNat 12) || c == '\r'

/-- Class of the uppercase letters A to Z. -/
def isUpperPy (c : Char) : Bool := decide (65 ≤ c.toNat) && decide (c.toNat ≤ 90)

/-- The character class `[A-Z\s]` of the arrest-line pattern. -/
def isNameChar (c : Char) : Bool := isUpperPy c || isSpacePy c

/-- Class w of Python regular expressions (ASCII fragment: letters, digits, underscore). -/
def isWordPy (c : Char) : Bool :=
  isUpperPy c || (decide (97 ≤ c.toNat) && decide (c.toNat ≤ 122)) || isDigitPy c || c == '_'

/-- Class dot of Python regular expressions: any character except a newline. -/
def isDotPy (c : Char) : Bool := !(c == '\n')

/-- Python `str.strip()`: drop whitespace from both ends. -/
def pyStrip (s : Str) : Str :=
  ((s.dropWhile isSpacePy).reverse.dropWhile isSpacePy).reverse

/-- Python `str.lower()` (ASCII fragment). -/
def pyLower (s : Str) : Str := s.map Char.toLower

/-! ### Python `str(n)` for a natural number: decimal digits -/

/-- The decimal digit characters. -/
def digitChar : Nat → Char
  | 0 => '0' | 1 => '1' | 2 => '2' | 3 => '3' | 4 => '4'
  | 5 => '5' | 6 => '6' | 7 => '7' | 8 => '8' | _ => '9'

/-- Digit accumulator for `decStr`; the fuel dominates the number of digits. -/
def decStrGo : Nat → Nat → Str → Str
  | 0, _, acc => acc
  | _ + 1, 0, acc => acc
  | f + 1, n, acc => decStrGo f (n / 10) (digitChar (n % 10) :: acc)

/-- Python `str(n)` on a non-negative integer. -/
def decStr (n : Nat) : Str := if n = 0 then ['0'] else decStrGo n n []

/-! ### Python `str.replace(pat, rep)`: replace all non-overlapping
occurrences, scanning left to right, never rescanning a replacement.
Implemented with an explicit fuel (an upper bound on the remaining length)
so that the definition is structural and computes by kernel reduction. -/

def replaceAllGo (pat rep : Str) : Nat → Str → Str
  | _, [] => []
  | 0, s => s
  | f + 1, c :: t =>
    if pat.isPrefixOf (c :: t) && !pat.isEmpty then
      rep ++ replaceAllGo pat rep f (t.drop (pat.length - 1))
    else
      c :: replaceAllGo pat rep f t

/-- Python `s.replace(pat, rep)` (for the non-empty patterns the program uses). -/
def replaceAll (s pat rep : Str) : Str := replaceAllGo pat rep s.length s

/-! ### Python substring containment (`pat in s`) -/

/-- Python substring containment test, pat in s. -/
def isSubstr (pat : Str) : Str → Bool
  | [] => pat.isEmpty
  | c :: t => pat.isPrefixOf (c :: t) || isSubstr pat t

/-! ### The crime categorizer -/

def violent_keywords : List Str :=
  ["assault".data, "battery".data, "domestic".data, "violence".data, "rape".data,
   "murder".data, "homicide".data, "robbery".data, "weapon".data]

def property_keywords : List Str :=
  ["theft".data, "burglary".data, "fraud".data, "forgery".data, "trespass".data,
   "vandalism".data, "arson".data, "shoplifting".data]

/-- Function categorize_crime of MadisonDataScraper (newsletter.py:134-153). -/
def categorize_crime (charge_or_type : Str) : Str :=
  let charge := pyLower charge_or_type
  if violent_keywords.any (fun kw => isSubstr kw charge) then "violent".data
  else if property_keywords.any (fun kw => isSubstr kw charge) then "property".data
  else "other".data

/-! ### Data model: Python dicts as structures with optional fields -/

/-- An arrest record dict.  `parse_arrests_pdf` populates the first four
keys; `main` later adds `category`.  Missing keys are `none`. -/
structure Arrest where
  date : Option Str := none
  name : Option Str := none
  city : Option Str := none
  charge : Option Str := none
  category : Option Str := none
deriving Repr, DecidableEq

/-- An incident dict.  `parse_incidents_pdf` populates only `raw` and
`parsed`; the renderer reads `date`, `type`, `location` with defaults. -/
structure Incident where
  raw : Option Str := none
  parsed : Option Bool := none
  date : Option Str := none
  type : Option Str := none
  location : Option Str := none
deriving Repr, DecidableEq

/-- The `crime_data` dict assembled by `main`. -/
structure CrimeData where
  arrests : List Arrest := []
  incidents : List Incident := []
deriving Repr, DecidableEq

/-! ### The arrest-line regular expression
with groups date, name (lazy uppercase-and-space run), city (word run)
and charge (rest), newsletter.py:66, embedded as a backtracking matcher in
continuation-passing style.  Alternatives are tried in the Python
backtracking order: a greedy quantifier prefers the longer consumption, a
lazy one the shorter, and the first overall success wins. -/

/-- Greedy repetition of one or two characters of a class: try two, then one.  The
continuation receives the captured characters and the rest of the input. -/
def rep12 (p : Char → Bool) (s : Str) (k : Str → Str → Option α) : Option α :=
  match s with
  | [] => none
  | c :: t =>
    if p c then
      match t with
      | c2 :: t2 => if p c2 then k [c, c2] t2 <|> k [c] t else k [c] t
      | [] => k [c] []
    else none

/-- Inner loop of a greedy `p+`: prefer consuming a further class
character, fall back to yielding at the current split. -/
def plusGreedyGo (p : Char → Bool) (k : Str → Str → Option α) : Str → Str → Option α
  | acc, [] => k acc []
  | acc, c :: t =>
    (if p c then plusGreedyGo p k (acc ++ [c]) t else none) <|> k acc (c :: t)

/-- Greedy plus: one or more characters of the class, longest first. -/
def plusGreedy (p : Char → Bool) (s : Str) (k : Str → Str → Option α) : Option α :=
  match s with
  | [] => none
  | c :: t => if p c then plusGreedyGo p k [c] t else none

/-- Inner loop of a lazy `p+?`: prefer yielding at the current split, fall
back to consuming a further class character. -/
def plusLazyGo (p : Char → Bool) (k : Str → Str → Option α) : Str → Str → Option α
  | acc, [] => k acc []
  | acc, c :: t =>
    k acc (c :: t) <|> (if p c then plusLazyGo p k (acc ++ [c]) t else none)

/-- Lazy plus: one or more characters of the class, shortest first. -/
def plusLazy (p : Char → Bool) (s : Str) (k : Str → Str → Option α) : Option α :=
  match s with
  | [] => none
  | c :: t => if p c then plusLazyGo p k [c] t else none

/-- The four capture groups of a successful arrest-line match. -/
structure RawMatch where
  date : Str
  name : Str
  city : Str
  charge : Str
deriving Repr, DecidableEq

/-- Anchored match of the arrest-line pattern: group 1 the date (one or
two digits, slash, one or two digits), whitespace, group 2 the name (lazy
run over uppercase letters and whitespace), whitespace, group 3 the city
(word run), whitespace, group 4 the charge (rest of the line). -/
def matchArrest (line : Str) : Option RawMatch :=
  rep12 isDigitPy line (fun d1 r1 =>
    match r1 with
    | c :: r2 =>
      if c == '/' then
        rep12 isDigitPy r2 (fun d2 r3 =>
          plusGreedy isSpacePy r3 (fun _ r4 =>
            plusLazy isNameChar r4 (fun nm r5 =>
              plusGreedy isSpacePy r5 (fun _ r6 =>
                plusGreedy isWordPy r6 (fun ct r7 =>
                  plusGreedy isSpacePy r7 (fun _ r8 =>
                    plusGreedy isDotPy r8 (fun ch _ =>
                      some ⟨d1 ++ c :: d2, nm, ct, ch⟩)))))))
      else none
    | [] => none)

/-- The record built from a successful match (fields `.strip()`ped),
newsletter.py:69-74. -/
def arrestOfMatch (m : RawMatch) : Arrest :=
  { date := some (pyStrip m.date), name := some (pyStrip m.name),
    city := some (pyStrip m.city), charge := some (pyStrip m.charge) }

/-- Function parse_arrests_pdf of MadisonDataScraper (newsletter.py:47-79) applied to
the text lines extracted from the PDF: header lines containing
`MADISON POLICE` or `ARREST` are skipped, every other line is matched
against the pattern, and non-matching lines are dropped. -/
def parse_arrests_pdf (lines : List Str) : List Arrest :=
  lines.filterMap (fun line =>
    if isSubstr ("MADISON POLICE".data) line || isSubstr ("ARREST".data) line then none
    else (matchArrest line).map arrestOfMatch)

/-! ### The incident extractor -/

/-- Date-token test at a single position: one or two digits, a slash,
and a further digit (the incident-line search pattern). -/
def dateTokenAt (s : Str) : Bool :=
  match s with
  | c :: t =>
    isDigitPy c &&
      (match t with
       | c2 :: t2 =>
         if isDigitPy c2 then
           match t2 with
           | c3 :: t3 => c3 == '/' && (match t3 with
             | c4 :: _ => isDigitPy c4
             | [] => false)
           | [] => false
         else
           c2 == '/' && (match t2 with
             | c3 :: _ => isDigitPy c3
             | [] => false)
       | [] => false)
  | [] => false

/-- Search for the date pattern: the test succeeds somewhere in the line. -/
def hasDateToken : Str → Bool
  | [] => false
  | c :: t => dateTokenAt (c :: t) || hasDateToken t

/-- Function parse_incidents_pdf of MadisonDataScraper (newsletter.py:110-132) applied
to the extracted text lines: every line containing a date-like token
becomes a stub `{raw: line, parsed: False}`. -/
def parse_incidents_pdf (lines : List Str) : List Incident :=
  lines.filterMap (fun line =>
    if hasDateToken line then some { raw := some line, parsed := some false } else none)

/-! ### Function get_offender_count of ALEAScraper, and the registry fallback in main -/

/-- Module constant `POPULATION` (newsletter.py:20). -/
def POPULATION : Nat := 56000

/-- Function get_offender_count of ALEAScraper (newsletter.py:161-191): given the
outcome of the network/HTML step — `some results` with the parsed
`offender-result` elements, or `none` when an exception was raised —
return the count of results, or `None` on failure. -/
def get_offender_count (scraped : Option (List Unit)) : Option Nat :=
  scraped.map List.length

/-- Python `x or d` on an optional integer: `None` and `0` are both falsy. -/
def pyOrNat (x : Option Nat) (d : Nat) : Nat :=
  match x with
  | none => d
  | some n => if n = 0 then d else n

/-- Python `n or d` on an integer (used for `len(xs) or d`). -/
def pyOrLen (n d : Nat) : Nat := if n = 0 then d else n

/-- The `sex_offender_data` dict built in `main` (newsletter.py:396-399). -/
structure SexOffenderData where
  total : Option Nat := none
  per_1000 : Option ℚ := none
deriving DecidableEq

/-- Construction of the sex_offender_data dict in main from the registry result. -/
def sex_offender_data (offender_count : Option Nat) : SexOffenderData :=
  { total := some (pyOrNat offender_count 23),
    per_1000 := some ((pyOrNat offender_count 23 : ℚ) / (POPULATION : ℚ) * 1000) }

/-- The categorization pass in main (newsletter.py:388-389): each arrest
dict gets its category key assigned from the categorizer applied to its
charge key (empty string when absent). -/
def categorizeAll (arrests : List Arrest) : List Arrest :=
  arrests.map (fun a => { a with category := some (categorize_crime (a.charge.getD [])) })

/-! ### The narrative builder: locally computed counts and the fallback text -/

/-- Incident total used by the narrative builder: the list length, or 12 when the list is empty (newsletter.py:203). -/
def analyzeTotalIncidents (incidents : List Incident) : Nat :=
  if incidents.isEmpty then 12 else incidents.length

/-- Violent count of the narrative builder (newsletter.py:206): how many
arrests carry the text violent inside their category field (empty string
when absent). -/
def analyzeViolentCount (arrests : List Arrest) : Nat :=
  arrests.countP (fun a => isSubstr ("violent".data) (a.category.getD []))

/-- Property count of the narrative builder (newsletter.py:207): how many
arrests carry the text property inside their category field (empty string
when absent). -/
def analyzePropertyCount (arrests : List Arrest) : Nat :=
  arrests.countP (fun a => isSubstr ("property".data) (a.category.getD []))

def fbSeg1 : Str :=
  ("\nCARD 1: Safe to Walk Around\nZero stranger violence this week. All ").data

def fbSeg2 : Str :=
  (" violent incidents were domestic situations in private homes. No random attacks or public safety threats.\n\nCARD 2: No Crime Hot Spots  \nIncidents distributed across different areas with no single location experiencing repeat activity. No dangerous neighborhoods.\n\nCARD 3: Nothing Left Unresolved\nAll reported incidents resolved within 48 hours. Strong police response time with no active threats.\n\nCARD 4: Normal City Activity\nWith ").data

def fbSeg3 : Str :=
  (" incidents for a population of 56,000, this is typical suburban activity. Most occurred in commercial areas.\n\nSUMMARY: Should you be worried? No. Madison shows low-level, isolated incidents with no concerning trends. This is what a safe, well-policed city looks like.\n").data

/-- Function fallback_analysis of DashboardGenerator (newsletter.py:245-261): the
f-string with the two counts and `{POPULATION:,}` (rendered `56,000`)
interpolated. -/
def fallback_analysis (incidents violent : Nat) : Str :=
  fbSeg1 ++ decStr violent ++ fbSeg2 ++ decStr incidents ++ fbSeg3

/-- The narrative produced by `analyze_crime_data` when the external API
call fails (newsletter.py:241-243): `fallback_analysis(total_incidents,
violent_count)`. -/
def analyze_crime_data_fallback (arrests : List Arrest) (incidents : List Incident) : Str :=
  fallback_analysis (analyzeTotalIncidents incidents) (analyzeViolentCount arrests)

/-! ### The statistics aggregator -/

/-- The stats dict returned by `calculate_stats`. -/
structure CrimeStats where
  total_incidents : Nat
  total_arrests : Nat
  violent_crime : Nat
  property_crime : Nat
  change_percent : Str
deriving Repr, DecidableEq

/-- Function calculate_stats of DashboardGenerator (newsletter.py:304-317). -/
def calculate_stats (cd : CrimeData) : CrimeStats :=
  { total_incidents := pyOrLen cd.incidents.length 12
    total_arrests := pyOrLen cd.arrests.length 5
    violent_crime := cd.arrests.countP
      (fun a => categorize_crime (a.charge.getD []) == "violent".data)
    property_crime := cd.arrests.countP
      (fun a => categorize_crime (a.charge.getD []) == "property".data)
    change_percent := "8".data }

/-! ### The table fragments and the renderer -/

def naStr : Str := "N/A".data

/-- Shared prefix of a table row f-string: newline, indentation, `<tr>`, first `<td>`. -/
def rowA : Str := ("\n            <tr>\n                <td>").data

/-- Between two cells: close a `<td>`, open the next. -/
def rowB : Str := ("</td>\n                <td>").data

/-- Row suffix: close the last `<td>` and the `<tr>`. -/
def rowC : Str := ("</td>\n            </tr>\n            ").data

def investigatingCell : Str :=
  ("<span class=\"badge badge-yellow\">Investigating</span>").data

def noIncidentRow : Str :=
  ("<tr><td colspan=\x274\x27>No incidents data available</td></tr>").data

def noArrestRow : Str :=
  ("<tr><td colspan=\x274\x27>No arrest data available</td></tr>").data

/-- One incident row (newsletter.py:332-339): `date`, `type`, `location`
read with the fixed N/A default, and the fixed Investigating badge. -/
def incidentRow (i : Incident) : Str :=
  rowA ++ (i.date.getD naStr) ++ rowB ++ (i.type.getD naStr) ++ rowB ++
    (i.location.getD naStr) ++ rowB ++ investigatingCell ++ rowC

/-- Function generate_incidents_table of DashboardGenerator (newsletter.py:325-340). -/
def generate_incidents_table (incidents : List Incident) : Str :=
  if incidents.isEmpty then noIncidentRow
  else (incidents.take 10).foldl (fun html i => html ++ incidentRow i) []

/-- One arrest row (newsletter.py:349-356). -/
def arrestRow (a : Arrest) : Str :=
  rowA ++ (a.date.getD naStr) ++ rowB ++ (a.name.getD naStr) ++ rowB ++
    (a.city.getD naStr) ++ rowB ++ (a.charge.getD naStr) ++ rowC

/-- Function generate_arrests_table of DashboardGenerator (newsletter.py:342-357). -/
def generate_arrests_table (arrests : List Arrest) : Str :=
  if arrests.isEmpty then noArrestRow
  else (arrests.take 10).foldl (fun html a => html ++ arrestRow a) []

/-- Function format_analysis_html of DashboardGenerator (newsletter.py:319-323). -/
def format_analysis_html (analysis_text : Str) : Str :=
  ("<div class=\x27analysis\x27>").data ++ analysis_text ++ ("</div>").data

/-! ### The template placeholders and `DashboardGenerator.generate_dashboard` -/

def tokDATE : Str := ("\x7b\x7bDATE\x7d\x7d").data
def tokTOTAL_INCIDENTS : Str := ("\x7b\x7bTOTAL_INCIDENTS\x7d\x7d").data
def tokTOTAL_ARRESTS : Str := ("\x7b\x7bTOTAL_ARRESTS\x7d\x7d").data
def tokPROPERTY_CRIME : Str := ("\x7b\x7bPROPERTY_CRIME\x7d\x7d").data
def tokVIOLENT_CRIME : Str := ("\x7b\x7bVIOLENT_CRIME\x7d\x7d").data
def tokCHANGE_PERCENT : Str := ("\x7b\x7bCHANGE_PERCENT\x7d\x7d").data
def tokSEX_OFFENDER_COUNT : Str := ("\x7b\x7bSEX_OFFENDER_COUNT\x7d\x7d").data
def tokBOTTOM_LINE_ANALYSIS : Str := ("\x7b\x7bBOTTOM_LINE_ANALYSIS\x7d\x7d").data
def tokINCIDENTS_TABLE : Str := ("\x7b\x7bINCIDENTS_TABLE\x7d\x7d").data
def tokARRESTS_TABLE : Str := ("\x7b\x7bARRESTS_TABLE\x7d\x7d").data

/-- The ten placeholders, in the order `generate_dashboard` replaces them. -/
def allTokens : List Str :=
  [tokDATE, tokTOTAL_INCIDENTS, tokTOTAL_ARRESTS, tokPROPERTY_CRIME,
   tokVIOLENT_CRIME, tokCHANGE_PERCENT, tokSEX_OFFENDER_COUNT,
   tokBOTTOM_LINE_ANALYSIS, tokINCIDENTS_TABLE, tokARRESTS_TABLE]

/-- Function generate_dashboard of DashboardGenerator (newsletter.py:263-302), its
pure core: the template text, the current date string and the narrative
text (external inputs) are parameters; the chain of `str.replace` calls is
performed in source order and the resulting document returned (the final
file write is out of scope). -/
def generate_dashboard (template dateStr analysis : Str) (cd : CrimeData)
    (sexData : SexOffenderData) : Str :=
  let stats := calculate_stats cd
  let h1 := replaceAll template tokDATE dateStr
  let h2 := replaceAll h1 tokTOTAL_INCIDENTS (decStr stats.total_incidents)
  let h3 := replaceAll h2 tokTOTAL_ARRESTS (decStr stats.total_arrests)
  let h4 := replaceAll h3 tokPROPERTY_CRIME (decStr stats.property_crime)
  let h5 := replaceAll h4 tokVIOLENT_CRIME (decStr stats.violent_crime)
  let h6 := replaceAll h5 tokCHANGE_PERCENT stats.change_percent
  let h7 := replaceAll h6 tokSEX_OFFENDER_COUNT (decStr (sexData.total.getD 23))
  let h8 := replaceAll h7 tokBOTTOM_LINE_ANALYSIS (format_analysis_html analysis)
  let h9 := replaceAll h8 tokINCIDENTS_TABLE (generate_incidents_table cd.incidents)
  replaceAll h9 tokARRESTS_TABLE (generate_arrests_table cd.arrests)

/-- No `{` or `}` occurs in the string. -/
def braceFree (s : Str) : Bool := s.all fun c => !(c == lbrace || c == rbrace)

/-- Decidable no-cross-match condition between a pattern and a segment:
no suffix of the segment starts a match. -/
def noCross (pat u : Str) : Bool :=
  (List.range u.length).all fun i =>
    !(List.isPrefixOf pat (u.drop i)) && !(List.isPrefixOf (u.drop i) pat)

/-- A piece of a template: a literal chunk or a placeholder token. -/
inductive TPiece where
  | chunk (s : Str)
  | tok (t : Str)
deriving Repr, DecidableEq

/-- The template text denoted by a list of pieces. -/
def flattenPieces : List TPiece → Str
  | [] => []
  | TPiece.chunk s :: ps => s ++ flattenPieces ps
  | TPiece.tok t :: ps => t ++ flattenPieces ps

/-- The effect of one `str.replace(pat, val)` on a piece: the matching
token becomes the literal replacement, everything else is untouched. -/
def replacePiece (pat val : Str) : TPiece → TPiece
  | TPiece.chunk s => TPiece.chunk s
  | TPiece.tok t => if t = pat then TPiece.chunk val else TPiece.tok t

/-- Well-formed piece: a brace-free chunk, or one of the ten tokens. -/
def pieceOK : TPiece → Bool
  | TPiece.chunk s => braceFree s
  | TPiece.tok t => allTokens.any fun u => u == t

/-- A chain of `str.replace` calls, as `generate_dashboard` performs. -/
def chainReplace (pvs : List (Str × Str)) (s : Str) : Str :=
  pvs.foldl (fun h pv => replaceAll h pv.1 pv.2) s

/-- The same chain acting piecewise on a structured template. -/
def chainPieces (pvs : List (Str × Str)) (ps : List TPiece) : List TPiece :=
  pvs.foldl (fun ps pv => ps.map (replacePiece pv.1 pv.2)) ps

/-- Fields of an arrest record, as rendered into its table row, are brace-free. -/
def arrestBF (a : Arrest) : Bool :=
  braceFree (a.date.getD naStr) && braceFree (a.name.getD naStr) &&
    braceFree (a.city.getD naStr) && braceFree (a.charge.getD naStr)

/-- Fields of an incident record, as rendered into its table row, are brace-free. -/
def incidentBF (i : Incident) : Bool :=
  braceFree (i.date.getD naStr) && braceFree (i.type.getD naStr) &&
    braceFree (i.location.getD naStr)

/-- The string `generate_dashboard` substitutes for each placeholder. -/
def tokenValue (dateStr analysis : Str) (cd : CrimeData) (sexData : SexOffenderData)
    (t : Str) : Str :=
  let stats := calculate_stats cd
  if t = tokDATE then dateStr
  else if t = tokTOTAL_INCIDENTS then decStr stats.total_incidents
  else if t = tokTOTAL_ARRESTS then decStr stats.total_arrests
  else if t = tokPROPERTY_CRIME then decStr stats.property_crime
  else if t = tokVIOLENT_CRIME then decStr stats.violent_crime
  else if t = tokCHANGE_PERCENT then stats.change_percent
  else if t = tokSEX_OFFENDER_COUNT then decStr (sexData.total.getD 23)
  else if t = tokBOTTOM_LINE_ANALYSIS then format_analysis_html analysis
  else if t = tokINCIDENTS_TABLE then generate_incidents_table cd.incidents
  else if t = tokARRESTS_TABLE then generate_arrests_table cd.arrests
  else t

/-- The net effect of the full replacement chain on one template piece. -/
def substPiece (dateStr analysis : Str) (cd : CrimeData) (sexData : SexOffenderData) :
    TPiece → TPiece
  | TPiece.chunk s => TPiece.chunk s
  | TPiece.tok t =>
    if allTokens.any (fun u => u == t) then
      TPiece.chunk (tokenValue dateStr analysis cd sexData t)
    else TPiece.tok t

/-- The pattern and value pairs of the replace chain of generate_dashboard, in
source order. -/
def dashboardPVs (dateStr analysis : Str) (cd : CrimeData) (sexData : SexOffenderData) :
    List (Str × Str) :=
  let stats := calculate_stats cd
  [(tokDATE, dateStr),
   (tokTOTAL_INCIDENTS, decStr stats.total_incidents),
   (tokTOTAL_ARRESTS, decStr stats.total_arrests),
   (tokPROPERTY_CRIME, decStr stats.property_crime),
   (tokVIOLENT_CRIME, decStr stats.violent_crime),
   (tokCHANGE_PERCENT, stats.change_percent),
   (tokSEX_OFFENDER_COUNT, decStr (sexData.total.getD 23)),
   (tokBOTTOM_LINE_ANALYSIS, format_analysis_html analysis),
   (tokINCIDENTS_TABLE, generate_incidents_table cd.incidents),
   (tokARRESTS_TABLE, generate_arrests_table cd.arrests)]

/-- Concatenation of one rendered row per record. -/
def rowsConcat (f : α → Str) : List α → Str
  | [] => []
  | x :: l => f x ++ rowsConcat f l

/-- The incident row rendered for a stub that has no date, type or
location: three N/A cells and the Investigating badge. -/
def naOnlyIncidentRow : Str := incidentRow {}

/-- Number of positions at which `pat` occurs in `s`. -/
def occCount (pat s : Str) : Nat :=
  (List.range (s.length + 1)).countP fun i => List.isPrefixOf pat (s.drop i)

/-- C6 counterexample template: each of the ten placeholders exactly once. -/
def cexTemplate : Str :=
  tokDATE ++ tokTOTAL_INCIDENTS ++ tokTOTAL_ARRESTS ++ tokPROPERTY_CRIME ++
    tokVIOLENT_CRIME ++ tokCHANGE_PERCENT ++ tokSEX_OFFENDER_COUNT ++
    tokBOTTOM_LINE_ANALYSIS ++ tokINCIDENTS_TABLE ++ tokARRESTS_TABLE

/-- C6 counterexample data: one arrest whose free-text charge happens to
contain the literal text `{{DATE}}`. -/
def cexCrimeData : CrimeData :=
  ⟨[{ date := some (("3/1").data), name := some (("JOHN").data),
      city := some (("Madison").data),
      charge := some (("\x7b\x7bDATE\x7d\x7d theft").data) }], []⟩

/-! ## Helper lemmas -/

/-- Unfolding of isPrefixOf on cons cells. -/
lemma isPrefixOf_cons_cons (a b : Char) (as bs : Str) :
    List.isPrefixOf (a :: as) (b :: bs) = (a == b && List.isPrefixOf as bs) := rfl

/-- A list is a boolean prefix of itself followed by anything. -/
lemma isPrefixOf_append_self (p r : Str) : List.isPrefixOf p (p ++ r) = true := by
  induction p with
  | nil => simp
  | cons c t ih => simp [isPrefixOf_cons_cons, ih]

/-- A boolean prefix of `d ++ r` is a prefix of `d` or extends beyond it. -/
lemma isPrefixOf_append_cases (p : Str) : ∀ d r : Str,
    List.isPrefixOf p (d ++ r) = true →
    List.isPrefixOf p d = true ∨ List.isPrefixOf d p = true := by
  induction p with
  | nil => intro d r _; left; simp
  | cons c t ih =>
    intro d r h
    cases d with
    | nil => right; simp
    | cons c2 d2 =>
      rw [List.cons_append, isPrefixOf_cons_cons, Bool.and_eq_true] at h
      rcases ih d2 r h.2 with h2 | h2
      · left; rw [isPrefixOf_cons_cons, h.1, h2]; rfl
      · right
        rw [isPrefixOf_cons_cons, h2, Bool.and_true]
        have := h.1
        rw [beq_iff_eq] at this
        rw [this]; exact beq_self_eq_true c2

/-- Agreement of isPrefixOf with the propositional prefix relation. -/
lemma isPrefixOf_iff (p : Str) : ∀ s : Str, List.isPrefixOf p s = true ↔ p <+: s := by
  induction p with
  | nil => intro s; simp
  | cons c t ih =>
    intro s
    cases s with
    | nil => simp
    | cons c2 s2 =>
      rw [isPrefixOf_cons_cons, Bool.and_eq_true, beq_iff_eq, ih, List.cons_prefix_cons]

/-- Agreement of isSubstr with the propositional infix relation. -/
lemma isSubstr_iff (pat : Str) : ∀ s : Str, isSubstr pat s = true ↔ pat <:+: s := by
  intro s
  induction s with
  | nil =>
    simp only [isSubstr, List.isEmpty_iff]
    constructor
    · intro h; rw [h]
    · intro h; exact List.eq_nil_of_infix_nil h
  | cons c t ih =>
    simp only [isSubstr, Bool.or_eq_true, isPrefixOf_iff, ih]
    rw [List.infix_cons_iff]

/-- A pattern that is a prefix of neither direction of a nonempty `d`
cannot be a prefix of `d ++ r` for any `r`. -/
lemma isPrefixOf_append_false (p d : Str)
    (h1 : List.isPrefixOf p d = false) (h2 : List.isPrefixOf d p = false)
    (r : Str) : List.isPrefixOf p (d ++ r) = false := by
  cases h : List.isPrefixOf p (d ++ r)
  · rfl
  · rcases isPrefixOf_append_cases p d r h with h' | h' <;> simp_all

/-! ### Equations for `replaceAll` -/

lemma replaceAllGo_nil (pat rep : Str) (f : Nat) : replaceAllGo pat rep f [] = [] := by
  cases f <;> rfl

/-- The fuel does not matter as long as it covers the remaining length. -/
lemma replaceAllGo_fuel (pat rep : Str) :
    ∀ f g s, s.length ≤ f → s.length ≤ g →
      replaceAllGo pat rep f s = replaceAllGo pat rep g s := by
  intro f
  induction f with
  | zero =>
    intro g s hf _
    have : s = [] := List.eq_nil_of_length_eq_zero (Nat.le_zero.mp hf)
    subst this; rw [replaceAllGo_nil, replaceAllGo_nil]
  | succ f ih =>
    intro g s hf hg
    cases s with
    | nil => rw [replaceAllGo_nil, replaceAllGo_nil]
    | cons c t =>
      cases g with
      | zero => simp at hg
      | succ g =>
        rw [replaceAllGo, replaceAllGo]
        have hlt : t.length ≤ f := by
          simpa using Nat.succ_le_succ_iff.mp hf
        have hltg : t.length ≤ g := by
          simpa using Nat.succ_le_succ_iff.mp hg
        have hdrop : (t.drop (pat.length - 1)).length ≤ t.length := by
          simp [List.length_drop]
        by_cases hc : (List.isPrefixOf pat (c :: t) && !pat.isEmpty) = true
        · rw [if_pos hc, if_pos hc]
          exact congrArg (rep ++ ·) (ih g _ (Nat.le_trans hdrop hlt) (Nat.le_trans hdrop hltg))
        · rw [if_neg hc, if_neg hc]
          exact congrArg (c :: ·) (ih g t hlt hltg)

lemma replaceAll_nil (pat rep : Str) : replaceAll [] pat rep = [] := rfl

/-- Step equation at a matching position. -/
lemma replaceAll_cons_match (pat rep : Str) (c : Char) (t : Str)
    (h : List.isPrefixOf pat (c :: t) = true) (hne : pat ≠ []) :
    replaceAll (c :: t) pat rep = rep ++ replaceAll (t.drop (pat.length - 1)) pat rep := by
  have hcond : (List.isPrefixOf pat (c :: t) && !pat.isEmpty) = true := by
    simp [h, List.isEmpty_iff, hne]
  show replaceAllGo pat rep (t.length + 1) (c :: t) = _
  rw [replaceAllGo, if_pos hcond, replaceAll]
  congr 1
  exact replaceAllGo_fuel pat rep t.length (t.drop (pat.length - 1)).length
    (t.drop (pat.length - 1)) (by simp [List.length_drop]) (Nat.le_refl _)

/-- Step equation at a non-matching position. -/
lemma replaceAll_cons_nomatch (pat rep : Str) (c : Char) (t : Str)
    (h : List.isPrefixOf pat (c :: t) = false) :
    replaceAll (c :: t) pat rep = c :: replaceAll t pat rep := by
  have hcond : (List.isPrefixOf pat (c :: t) && !pat.isEmpty) = false := by
    simp [h]
  show replaceAllGo pat rep (t.length + 1) (c :: t) = _
  rw [replaceAllGo, if_neg (by simp [hcond]), replaceAll]

/-- Walking lemma: replaceAll copies a segment in which no match can start. -/
lemma replaceAll_append_skip (pat rep : Str) :
    ∀ u r : Str,
      (∀ i, i < u.length → List.isPrefixOf pat (u.drop i ++ r) = false) →
      replaceAll (u ++ r) pat rep = u ++ replaceAll r pat rep := by
  intro u
  induction u with
  | nil => intro r _; simp
  | cons c t ih =>
    intro r h
    have h0 : List.isPrefixOf pat ((c :: t) ++ r) = false := by
      simpa using h 0 (Nat.succ_pos _)
    rw [List.cons_append, replaceAll_cons_nomatch pat rep c (t ++ r) h0,
      ih r (fun i hi => by simpa using h (i + 1) (Nat.succ_lt_succ hi))]
    rfl

/-- Hit lemma: replaceAll replaces a leading occurrence of the pattern and resumes
after it. -/
lemma replaceAll_append_hit (pat rep : Str) (r : Str) (hne : pat ≠ []) :
    replaceAll (pat ++ r) pat rep = rep ++ replaceAll r pat rep := by
  cases pat with
  | nil => exact absurd rfl hne
  | cons c p =>
    rw [List.cons_append,
      replaceAll_cons_match (c :: p) rep c (p ++ r) (by
        rw [← List.cons_append]; exact isPrefixOf_append_self (c :: p) r) hne]
    congr 2
    simp

/-! ### Brace-freedom: strings containing no literal brace characters -/

lemma braceFree_append (a b : Str) : braceFree (a ++ b) = (braceFree a && braceFree b) :=
  List.all_append

lemma braceFree_mem (s : Str) (h : braceFree s = true) (c : Char) (hc : c ∈ s) :
    (lbrace == c) = false ∧ c ≠ lbrace ∧ c ≠ rbrace := by
  have h1 := List.all_eq_true.mp h c hc
  rw [Bool.not_eq_eq_eq_not, Bool.not_true, Bool.or_eq_false_iff] at h1
  have hl : c ≠ lbrace := by
    intro e; rw [e] at h1; simp at h1
  have hr : c ≠ rbrace := by
    intro e; rw [e] at h1; simp at h1
  refine ⟨?_, hl, hr⟩
  cases hb : (lbrace == c)
  · rfl
  · exact absurd (beq_iff_eq.mp hb).symm hl

/-- A match for a pattern beginning with `{` cannot start anywhere inside a
brace-free segment. -/
lemma replaceAll_chunk_skip (pat rep u r : Str) (hu : braceFree u = true)
    (p' : Str) (hpat : pat = lbrace :: p') :
    replaceAll (u ++ r) pat rep = u ++ replaceAll r pat rep := by
  apply replaceAll_append_skip
  intro i hi
  rw [List.drop_eq_getElem_cons hi, hpat, List.cons_append, isPrefixOf_cons_cons]
  rw [(braceFree_mem u hu _ (u.getElem_mem hi)).1]
  rfl

/-- A segment satisfying `noCross` is walked over verbatim. -/
lemma replaceAll_noCross_skip (pat rep u r : Str) (h : noCross pat u = true) :
    replaceAll (u ++ r) pat rep = u ++ replaceAll r pat rep := by
  apply replaceAll_append_skip
  intro i hi
  have hh := List.all_eq_true.mp h i (List.mem_range.mpr hi)
  simp only [Bool.and_eq_true, Bool.not_eq_true'] at hh
  exact isPrefixOf_append_false pat (u.drop i) hh.1 hh.2 r

/-- Distinct placeholders never cross-match: scanning for one token never
finds a match starting inside another. -/
lemma tokens_pairwise_noCross :
    (allTokens.all fun p => allTokens.all fun u => (p == u) || noCross p u) = true := by
  decide

/-- Every placeholder token starts with a `{`. -/
lemma token_head : ∀ t ∈ allTokens, ∃ p', t = lbrace :: p' := by
  intro t ht
  fin_cases ht <;> exact ⟨_, rfl⟩

/-- Every placeholder token is brace-delimited, hence not brace-free and
nonempty. -/
lemma token_ne_nil : ∀ t ∈ allTokens, t ≠ [] := by
  intro t ht
  obtain ⟨p', hp⟩ := token_head t ht
  simp [hp]

/-! ### Structured templates: brace-free literal chunks interleaved with
placeholder tokens -/

/-- Key lemma: on a structured template, one `str.replace` with a
placeholder token acts piecewise. -/
lemma replaceAll_flattenPieces (pat val : Str) (hpat : pat ∈ allTokens) :
    ∀ ps : List TPiece, (ps.all pieceOK = true) →
      replaceAll (flattenPieces ps) pat val
        = flattenPieces (ps.map (replacePiece pat val)) := by
  intro ps
  induction ps with
  | nil => intro _; rfl
  | cons p ps ih =>
    intro hok
    rw [List.all_cons, Bool.and_eq_true] at hok
    cases p with
    | chunk s =>
      obtain ⟨p', hp'⟩ := token_head pat hpat
      simp only [List.map_cons, replacePiece, flattenPieces]
      rw [replaceAll_chunk_skip pat val s (flattenPieces ps) hok.1 p' hp', ih hok.2]
    | tok t =>
      have ht : t ∈ allTokens := by
        have := hok.1
        simp only [pieceOK, List.any_eq_true, beq_iff_eq] at this
        obtain ⟨u, hu, rfl⟩ := this
        exact hu
      by_cases he : t = pat
      · subst he
        simp only [List.map_cons, replacePiece, if_pos rfl, flattenPieces]
        rw [replaceAll_append_hit t val (flattenPieces ps) (token_ne_nil t ht), ih hok.2]
      · have hnc : noCross pat t = true := by
          have hall := List.all_eq_true.mp tokens_pairwise_noCross pat hpat
          have hone := List.all_eq_true.mp hall t ht
          rw [Bool.or_eq_true] at hone
          rcases hone with h' | h'
          · exact absurd (beq_iff_eq.mp h').symm he
          · exact h'
        simp only [List.map_cons, replacePiece, if_neg he, flattenPieces]
        rw [replaceAll_noCross_skip pat val t (flattenPieces ps) hnc, ih hok.2]

/-- Replacing a token with a brace-free value keeps a piece well formed. -/
lemma pieceOK_replacePiece (pat val : Str) (hval : braceFree val = true)
    (p : TPiece) (hp : pieceOK p = true) : pieceOK (replacePiece pat val p) = true := by
  cases p with
  | chunk s => exact hp
  | tok t =>
    simp only [replacePiece]
    by_cases he : t = pat
    · rw [if_pos he]; exact hval
    · rw [if_neg he]; exact hp

lemma map_pieceOK (pat val : Str) (hval : braceFree val = true)
    (ps : List TPiece) (h : ps.all pieceOK = true) :
    (ps.map (replacePiece pat val)).all pieceOK = true := by
  rw [List.all_map]
  rw [List.all_eq_true] at h ⊢
  intro p hp
  exact pieceOK_replacePiece pat val hval p (h p hp)

/-- The whole replacement chain acts piecewise on a structured template. -/
lemma chainReplace_flatten :
    ∀ pvs : List (Str × Str), ∀ ps : List TPiece,
      (∀ pv ∈ pvs, pv.1 ∈ allTokens ∧ braceFree pv.2 = true) →
      ps.all pieceOK = true →
      chainReplace pvs (flattenPieces ps) = flattenPieces (chainPieces pvs ps)
        ∧ (chainPieces pvs ps).all pieceOK = true := by
  intro pvs
  induction pvs with
  | nil => intro ps _ hok; exact ⟨rfl, hok⟩
  | cons pv pvs ih =>
    intro ps hpv hok
    have hmem := hpv pv (List.mem_cons_self pv pvs)
    have h1 := replaceAll_flattenPieces pv.1 pv.2 hmem.1 ps hok
    have hok2 := map_pieceOK pv.1 pv.2 hmem.2 ps hok
    have ih2 := ih (ps.map (replacePiece pv.1 pv.2))
      (fun q hq => hpv q (List.mem_cons_of_mem _ hq)) hok2
    refine ⟨?_, ih2.2⟩
    show chainReplace pvs (replaceAll (flattenPieces ps) pv.1 pv.2) = _
    rw [h1]
    exact ih2.1

/-! ### Brace-freedom of the computed placeholder values -/

lemma braceFree_nil : braceFree [] = true := rfl

lemma braceFree_cons (c : Char) (s : Str) :
    braceFree (c :: s) = (!(c == lbrace || c == rbrace) && braceFree s) := rfl

lemma digitChar_notBrace (d : Nat) :
    (!(digitChar d == lbrace || digitChar d == rbrace)) = true := by
  unfold digitChar
  split <;> decide

lemma decStrGo_braceFree :
    ∀ f n (acc : Str), braceFree acc = true → braceFree (decStrGo f n acc) = true := by
  intro f
  induction f with
  | zero => intro n acc h; exact h
  | succ f ih =>
    intro n acc h
    cases n with
    | zero => exact h
    | succ n =>
      rw [decStrGo]
      · exact ih _ _ (by rw [braceFree_cons, digitChar_notBrace, Bool.true_and]; exact h)
      · omega

/-- The decimal rendering of a count never contains a brace. -/
lemma decStr_braceFree (n : Nat) : braceFree (decStr n) = true := by
  unfold decStr
  split
  · decide
  · exact decStrGo_braceFree n n [] rfl

lemma arrestRow_braceFree (a : Arrest) (h : arrestBF a = true) :
    braceFree (arrestRow a) = true := by
  rw [arrestBF, Bool.and_eq_true, Bool.and_eq_true, Bool.and_eq_true] at h
  obtain ⟨⟨⟨h1, h2⟩, h3⟩, h4⟩ := h
  simp only [arrestRow, braceFree_append, h1, h2, h3, h4,
    Bool.and_true, Bool.true_and]
  decide

lemma incidentRow_braceFree (i : Incident) (h : incidentBF i = true) :
    braceFree (incidentRow i) = true := by
  rw [incidentBF, Bool.and_eq_true, Bool.and_eq_true] at h
  obtain ⟨⟨h1, h2⟩, h3⟩ := h
  simp only [incidentRow, braceFree_append, h1, h2, h3,
    Bool.and_true, Bool.true_and]
  decide

lemma braceFree_foldl (f : α → Str) :
    ∀ (l : List α) (acc : Str), braceFree acc = true →
      (∀ x ∈ l, braceFree (f x) = true) →
      braceFree (l.foldl (fun h x => h ++ f x) acc) = true := by
  intro l
  induction l with
  | nil => intro acc h _; exact h
  | cons x l ih =>
    intro acc h hall
    rw [List.foldl_cons]
    exact ih (acc ++ f x)
      (by rw [braceFree_append, h, hall x (List.mem_cons_self x l)]; rfl)
      (fun y hy => hall y (List.mem_cons_of_mem x hy))

lemma arrests_table_braceFree (arrests : List Arrest)
    (h : arrests.all arrestBF = true) :
    braceFree (generate_arrests_table arrests) = true := by
  rw [generate_arrests_table]
  split
  · decide
  · exact braceFree_foldl arrestRow (arrests.take 10) [] rfl
      (fun a ha => arrestRow_braceFree a
        (List.all_eq_true.mp h a (List.take_subset 10 arrests ha)))

lemma incidents_table_braceFree (incidents : List Incident)
    (h : incidents.all incidentBF = true) :
    braceFree (generate_incidents_table incidents) = true := by
  rw [generate_incidents_table]
  split
  · decide
  · exact braceFree_foldl incidentRow (incidents.take 10) [] rfl
      (fun i hi => incidentRow_braceFree i
        (List.all_eq_true.mp h i (List.take_subset 10 incidents hi)))

lemma format_analysis_braceFree (analysis : Str) (h : braceFree analysis = true) :
    braceFree (format_analysis_html analysis) = true := by
  simp only [format_analysis_html, braceFree_append, h, Bool.and_true, Bool.true_and]
  decide

/-! ### The piecewise description of `generate_dashboard` -/

/-- Rendering is the fold of the replace chain. -/
lemma generate_dashboard_eq_chain (template dateStr analysis : Str) (cd : CrimeData)
    (sexData : SexOffenderData) :
    generate_dashboard template dateStr analysis cd sexData
      = chainReplace (dashboardPVs dateStr analysis cd sexData) template := by
  simp only [generate_dashboard, chainReplace, dashboardPVs, List.foldl_cons, List.foldl_nil]

/-- Each pair in the chain is a token with a brace-free value, under the
data hypotheses. -/
lemma dashboardPVs_ok (dateStr analysis : Str) (cd : CrimeData) (sexData : SexOffenderData)
    (hdate : braceFree dateStr = true) (hana : braceFree analysis = true)
    (harr : cd.arrests.all arrestBF = true) (hinc : cd.incidents.all incidentBF = true) :
    ∀ pv ∈ dashboardPVs dateStr analysis cd sexData,
      pv.1 ∈ allTokens ∧ braceFree pv.2 = true := by
  intro pv hpv
  fin_cases hpv
  · exact ⟨by simp [allTokens], hdate⟩
  · exact ⟨by simp [allTokens], decStr_braceFree _⟩
  · exact ⟨by simp [allTokens], decStr_braceFree _⟩
  · exact ⟨by simp [allTokens], decStr_braceFree _⟩
  · exact ⟨by simp [allTokens], decStr_braceFree _⟩
  · exact ⟨by simp [allTokens], show braceFree (("8").data) = true by decide⟩
  · exact ⟨by simp [allTokens], decStr_braceFree _⟩
  · exact ⟨by simp [allTokens], format_analysis_braceFree analysis hana⟩
  · exact ⟨by simp [allTokens], incidents_table_braceFree cd.incidents hinc⟩
  · exact ⟨by simp [allTokens], arrests_table_braceFree cd.arrests harr⟩

/-- The chain of ten piecewise maps collapses to `substPiece`. -/
lemma chainPieces_dashboard (dateStr analysis : Str) (cd : CrimeData)
    (sexData : SexOffenderData) (ps : List TPiece) (hok : ps.all pieceOK = true) :
    chainPieces (dashboardPVs dateStr analysis cd sexData) ps
      = ps.map (substPiece dateStr analysis cd sexData) := by
  show ((((((((((ps.map _).map _).map _).map _).map _).map _).map _).map _).map _).map _) = _
  simp only [List.map_map]
  apply List.map_congr_left
  intro p hp
  have hpok := List.all_eq_true.mp hok p hp
  cases p with
  | chunk s => simp [replacePiece, substPiece, Function.comp]
  | tok t =>
    have ht : t ∈ allTokens := by
      simp only [pieceOK, List.any_eq_true, beq_iff_eq] at hpok
      obtain ⟨u, hu, rfl⟩ := hpok
      exact hu
    have hany : (allTokens.any fun u => u == t) = true := by
      simp only [List.any_eq_true, beq_iff_eq]
      exact ⟨t, ht, rfl⟩
    fin_cases ht <;>
      simp [replacePiece, substPiece, tokenValue, Function.comp, tokDATE,
        tokTOTAL_INCIDENTS, tokTOTAL_ARRESTS, tokPROPERTY_CRIME, tokVIOLENT_CRIME,
        tokCHANGE_PERCENT, tokSEX_OFFENDER_COUNT, tokBOTTOM_LINE_ANALYSIS,
        tokINCIDENTS_TABLE, tokARRESTS_TABLE, allTokens]

/-- Every computed placeholder value is brace-free under the data hypotheses. -/
lemma tokenValue_braceFree (dateStr analysis : Str) (cd : CrimeData)
    (sexData : SexOffenderData)
    (hdate : braceFree dateStr = true) (hana : braceFree analysis = true)
    (harr : cd.arrests.all arrestBF = true) (hinc : cd.incidents.all incidentBF = true) :
    ∀ t ∈ allTokens, braceFree (tokenValue dateStr analysis cd sexData t) = true := by
  intro t ht
  fin_cases ht <;>
    simp [tokenValue, tokDATE, tokTOTAL_INCIDENTS, tokTOTAL_ARRESTS,
      tokPROPERTY_CRIME, tokVIOLENT_CRIME, tokCHANGE_PERCENT, tokSEX_OFFENDER_COUNT,
      tokBOTTOM_LINE_ANALYSIS, tokINCIDENTS_TABLE, tokARRESTS_TABLE, calculate_stats] <;>
    first
      | exact hdate
      | exact decStr_braceFree _
      | exact format_analysis_braceFree analysis hana
      | exact incidents_table_braceFree cd.incidents hinc
      | exact arrests_table_braceFree cd.arrests harr
      | decide

/-- A list of brace-free chunks flattens to a brace-free string. -/
lemma flattenPieces_braceFree :
    ∀ ps : List TPiece,
      (∀ p ∈ ps, ∃ s, p = TPiece.chunk s ∧ braceFree s = true) →
      braceFree (flattenPieces ps) = true := by
  intro ps
  induction ps with
  | nil => intro _; rfl
  | cons p ps ih =>
    intro h
    obtain ⟨s, rfl, hs⟩ := h p (List.mem_cons_self p ps)
    rw [flattenPieces, braceFree_append, hs,
      ih (fun q hq => h q (List.mem_cons_of_mem _ hq))]
    rfl

/-- A brace-free string contains no placeholder token. -/
lemma braceFree_no_token (s : Str) (hbf : braceFree s = true) :
    ∀ t ∈ allTokens, isSubstr t s = false := by
  intro t ht
  cases h : isSubstr t s
  · rfl
  · exfalso
    obtain ⟨u, v, huv⟩ := (isSubstr_iff t s).mp h
    obtain ⟨p', hp⟩ := token_head t ht
    have hmem : lbrace ∈ s := by
      rw [← huv, hp]
      simp
    exact (braceFree_mem s hbf lbrace hmem).2.1 rfl

/-! ### Character-class disjointness -/

lemma digit_not_space (c : Char) (h : isDigitPy c = true) : isSpacePy c = false := by
  simp only [isDigitPy, Bool.and_eq_true, decide_eq_true_eq] at h
  simp only [isSpacePy, Bool.or_eq_false_iff, beq_eq_false_iff_ne]
  refine ⟨⟨⟨⟨⟨?_, ?_⟩, ?_⟩, ?_⟩, ?_⟩, ?_⟩ <;>
    (intro e; subst e; exact absurd h (by decide))

lemma upper_not_space (c : Char) (h : isUpperPy c = true) : isSpacePy c = false := by
  simp only [isUpperPy, Bool.and_eq_true, decide_eq_true_eq] at h
  simp only [isSpacePy, Bool.or_eq_false_iff, beq_eq_false_iff_ne]
  refine ⟨⟨⟨⟨⟨?_, ?_⟩, ?_⟩, ?_⟩, ?_⟩, ?_⟩ <;>
    (intro e; subst e; exact absurd h (by decide))

lemma word_not_space (c : Char) (h : isWordPy c = true) : isSpacePy c = false := by
  simp only [isWordPy, isUpperPy, isDigitPy, Bool.or_eq_true, Bool.and_eq_true,
    decide_eq_true_eq, beq_iff_eq] at h
  simp only [isSpacePy, Bool.or_eq_false_iff, beq_eq_false_iff_ne]
  refine ⟨⟨⟨⟨⟨?_, ?_⟩, ?_⟩, ?_⟩, ?_⟩, ?_⟩ <;>
    (intro e; subst e; exact absurd h (by decide))

lemma upper_isNameChar (c : Char) (h : isUpperPy c = true) : isNameChar c = true := by
  simp [isNameChar, h]

/-! ### Behaviour of the backtracking combinators on structured input -/

lemma plusGreedy_head_false (p : Char → Bool) (c : Char) (t : Str)
    (k : Str → Str → Option α) (h : p c = false) : plusGreedy p (c :: t) k = none := by
  simp [plusGreedy, h]

/-- The greedy loop runs through a maximal class-run and yields at the first
non-class character, provided the continuation accepts there. -/
lemma plusGreedyGo_skip (p : Char → Bool) (k : Str → Str → Option α) :
    ∀ (w acc : Str) (c' : Char) (tail : Str) (v : α),
      (∀ c ∈ w, p c = true) → p c' = false →
      k (acc ++ w) (c' :: tail) = some v →
      plusGreedyGo p k acc (w ++ c' :: tail) = some v := by
  intro w
  induction w with
  | nil =>
    intro acc c' tail v _ hc' hk
    rw [List.nil_append, plusGreedyGo, hc']
    simpa using hk
  | cons c w ih =>
    intro acc c' tail v hw hc' hk
    rw [List.cons_append, plusGreedyGo, hw c (List.mem_cons_self c w), if_pos rfl,
      ih (acc ++ [c]) c' tail v (fun x hx => hw x (List.mem_cons_of_mem c hx)) hc'
        (by simpa using hk)]
    rfl

/-- The greedy loop consumes the entire remaining input when it is all in
class, provided the continuation accepts the exhausted input. -/
lemma plusGreedyGo_all (p : Char → Bool) (k : Str → Str → Option α) :
    ∀ (s acc : Str) (v : α), (∀ c ∈ s, p c = true) →
      k (acc ++ s) [] = some v → plusGreedyGo p k acc s = some v := by
  intro s
  induction s with
  | nil =>
    intro acc v _ hk
    rw [plusGreedyGo]
    simpa using hk
  | cons c s ih =>
    intro acc v hs hk
    rw [plusGreedyGo, hs c (List.mem_cons_self c s), if_pos rfl,
      ih (acc ++ [c]) v (fun x hx => hs x (List.mem_cons_of_mem c hx)) (by simpa using hk)]
    rfl

lemma plusGreedy_skip (p : Char → Bool) (k : Str → Str → Option α)
    (w : Str) (c' : Char) (tail : Str) (v : α)
    (hw : ∀ c ∈ w, p c = true) (hne : w ≠ []) (hc' : p c' = false)
    (hk : k w (c' :: tail) = some v) :
    plusGreedy p (w ++ c' :: tail) k = some v := by
  cases w with
  | nil => exact absurd rfl hne
  | cons c w =>
    rw [List.cons_append, plusGreedy, hw c (List.mem_cons_self c w), if_pos rfl]
    exact plusGreedyGo_skip p k w [c] c' tail v
      (fun x hx => hw x (List.mem_cons_of_mem c hx)) hc' hk

lemma plusGreedy_all (p : Char → Bool) (k : Str → Str → Option α)
    (s : Str) (v : α) (hs : ∀ c ∈ s, p c = true) (hne : s ≠ [])
    (hk : k s [] = some v) : plusGreedy p s k = some v := by
  cases s with
  | nil => exact absurd rfl hne
  | cons c s =>
    rw [plusGreedy, hs c (List.mem_cons_self c s), if_pos rfl]
    exact plusGreedyGo_all p k s [c] v (fun x hx => hs x (List.mem_cons_of_mem c hx)) hk

/-- The lazy loop advances through a run of characters on which the
continuation refuses to proceed. -/
lemma plusLazyGo_through (p : Char → Bool) (k : Str → Str → Option α)
    (hfail : ∀ acc (c : Char) rest, isUpperPy c = true → k acc (c :: rest) = none)
    (hcls : ∀ c, isUpperPy c = true → p c = true) :
    ∀ (w acc tail : Str), (∀ c ∈ w, isUpperPy c = true) →
      plusLazyGo p k acc (w ++ tail) = plusLazyGo p k (acc ++ w) tail := by
  intro w
  induction w with
  | nil => intro acc tail _; simp
  | cons c w ih =>
    intro acc tail hw
    have hc : isUpperPy c = true := hw c (List.mem_cons_self c w)
    rw [List.cons_append, plusLazyGo, hfail acc c _ hc, hcls c hc, if_pos rfl,
      ih (acc ++ [c]) tail (fun x hx => hw x (List.mem_cons_of_mem c hx))]
    simp

/-- The lazy quantifier stops at the earliest split the continuation
accepts: after an uppercase run it yields exactly that run. -/
lemma plusLazy_word (p : Char → Bool) (k : Str → Str → Option α)
    (hfail : ∀ acc (c : Char) rest, isUpperPy c = true → k acc (c :: rest) = none)
    (hcls : ∀ c, isUpperPy c = true → p c = true)
    (w tail : Str) (v : α) (hw : ∀ c ∈ w, isUpperPy c = true) (hne : w ≠ [])
    (hk : k w tail = some v) :
    plusLazy p (w ++ tail) k = some v := by
  cases w with
  | nil => exact absurd rfl hne
  | cons c w =>
    have hc : isUpperPy c = true := hw c (List.mem_cons_self c w)
    rw [List.cons_append, plusLazy, hcls c hc, if_pos rfl,
      plusLazyGo_through p k hfail hcls w [c] tail
        (fun x hx => hw x (List.mem_cons_of_mem c hx))]
    cases tail with
    | nil => rw [plusLazyGo]; simpa using hk
    | cons c2 t2 => rw [plusLazyGo, (by simpa using hk : k ([c] ++ w) (c2 :: t2) = some v)]; rfl

/-! ### Misc helpers: strip, concatenated rows, categorizer range -/

lemma dropWhile_all_false (p : Char → Bool) (s : Str)
    (h : ∀ c ∈ s, p c = false) : s.dropWhile p = s := by
  cases s with
  | nil => rfl
  | cons c t =>
    rw [List.dropWhile_cons, h c (List.mem_cons_self c t)]
    simp

/-- Stripping is the identity on a string with no whitespace. -/
lemma pyStrip_no_space (s : Str) (h : ∀ c ∈ s, isSpacePy c = false) : pyStrip s = s := by
  rw [pyStrip, dropWhile_all_false isSpacePy s h,
    dropWhile_all_false isSpacePy s.reverse (fun c hc => h c (List.mem_reverse.mp hc)),
    List.reverse_reverse]

lemma foldl_append_rows (f : α → Str) :
    ∀ (l : List α) (acc : Str),
      l.foldl (fun h x => h ++ f x) acc = acc ++ rowsConcat f l := by
  intro l
  induction l with
  | nil => intro acc; simp [rowsConcat]
  | cons x l ih =>
    intro acc
    rw [List.foldl_cons, ih (acc ++ f x), rowsConcat, List.append_assoc]

/-- The categorizer is total: it returns one of exactly three labels. -/
lemma categorize_mem (s : Str) :
    categorize_crime s = ("violent").data ∨ categorize_crime s = ("property").data ∨
      categorize_crime s = ("other").data := by
  unfold categorize_crime
  simp only []
  split_ifs
  · left; rfl
  · right; left; rfl
  · right; right; rfl

/-- On any of the three category labels, the substring test of the
narrative builder agrees with the equality test of the aggregator. -/
lemma substr_category_eq (cat : Str)
    (h : cat = ("violent").data ∨ cat = ("property").data ∨ cat = ("other").data) :
    (isSubstr (("violent").data) cat = (cat == ("violent").data))
      ∧ (isSubstr (("property").data) cat = (cat == ("property").data)) := by
  rcases h with rfl | rfl | rfl <;> exact ⟨by decide, by decide⟩

/-! ## The claims -/

/-- C1: `categorize_crime` is a pure total function returning exactly one
of `violent`, `property`, `other`: if the lower-cased string contains any
violent keyword it returns `violent` (even when a property keyword is also
present); otherwise, if it contains any property keyword, `property`;
otherwise `other`. -/
theorem C1_categorize_crime_spec (s : Str) :
    (categorize_crime s = ("violent").data ∨ categorize_crime s = ("property").data ∨
      categorize_crime s = ("other").data)
    ∧ ((∃ kw ∈ violent_keywords, kw <:+: pyLower s) →
        categorize_crime s = ("violent").data)
    ∧ ((¬ ∃ kw ∈ violent_keywords, kw <:+: pyLower s) →
        (∃ kw ∈ property_keywords, kw <:+: pyLower s) →
        categorize_crime s = ("property").data)
    ∧ ((¬ ∃ kw ∈ violent_keywords, kw <:+: pyLower s) →
        (¬ ∃ kw ∈ property_keywords, kw <:+: pyLower s) →
        categorize_crime s = ("other").data) := by
  have hv : (violent_keywords.any fun kw => isSubstr kw (pyLower s)) = true
      ↔ ∃ kw ∈ violent_keywords, kw <:+: pyLower s := by
    rw [List.any_eq_true]
    simp only [isSubstr_iff]
  have hp : (property_keywords.any fun kw => isSubstr kw (pyLower s)) = true
      ↔ ∃ kw ∈ property_keywords, kw <:+: pyLower s := by
    rw [List.any_eq_true]
    simp only [isSubstr_iff]
  refine ⟨categorize_mem s, ?_, ?_, ?_⟩
  · intro h
    unfold categorize_crime
    rw [if_pos (hv.mpr h)]
  · intro h1 h2
    unfold categorize_crime
    rw [if_neg (fun hc => h1 (hv.mp hc)), if_pos (hp.mpr h2)]
  · intro h1 h2
    unfold categorize_crime
    rw [if_neg (fun hc => h1 (hv.mp hc)), if_neg (fun hc => h2 (hp.mp hc))]

/-- C1 witness: a charge containing both a violent and a property keyword
is categorized `violent`. -/
theorem C1_categorize_crime_spec_witness :
    (∃ kw ∈ violent_keywords, kw <:+: pyLower (("Armed Robbery with theft").data))
      ∧ categorize_crime (("Armed Robbery with theft").data) = ("violent").data := by
  have h : ∃ kw ∈ violent_keywords, kw <:+: pyLower (("Armed Robbery with theft").data) := by
    decide
  exact ⟨h, (C1_categorize_crime_spec _).2.1 h⟩

/-- C3: on empty extracted lists, `calculate_stats` returns the stub
values (12 incidents, 5 arrests, zero category counts, "8"); on non-empty
lists it returns the actual lengths and actual per-category counts of the
arrests whose charge categorizes as violent resp. property. -/
theorem C3_calculate_stats_spec :
    calculate_stats ⟨[], []⟩
        = ⟨12, 5, 0, 0, ("8").data⟩
    ∧ (∀ cd : CrimeData, cd.arrests ≠ [] → cd.incidents ≠ [] →
        calculate_stats cd = ⟨cd.incidents.length, cd.arrests.length,
          cd.arrests.countP
            (fun a => categorize_crime (a.charge.getD []) == ("violent").data),
          cd.arrests.countP
            (fun a => categorize_crime (a.charge.getD []) == ("property").data),
          ("8").data⟩) := by
  constructor
  · rfl
  · intro cd ha hi
    unfold calculate_stats
    simp [pyOrLen, List.length_eq_zero, ha, hi]

/-- C3 witness: one arrest ("burglary") and one incident give totals 1/1
and a single property count. -/
theorem C3_calculate_stats_spec_witness :
    (⟨[{ charge := some (("burglary").data) }],
        [{ raw := some (("1/2 x").data) }]⟩ : CrimeData).arrests ≠ []
    ∧ calculate_stats ⟨[{ charge := some (("burglary").data) }],
        [{ raw := some (("1/2 x").data) }]⟩ = ⟨1, 1, 0, 1, ("8").data⟩ := by
  refine ⟨by decide, ?_⟩
  have h := C3_calculate_stats_spec.2
    ⟨[{ charge := some (("burglary").data) }], [{ raw := some (("1/2 x").data) }]⟩
    (by decide) (by decide)
  rw [h]
  decide

/-- C4: when the registry query yields the absence signal, the downstream
stats carry total = 23 and per-1000 rate 23/56000·1000 ≈ 0.4107. -/
theorem C4_registry_fallback :
    (sex_offender_data none).total = some 23
    ∧ (sex_offender_data none).per_1000 = some ((23 : ℚ) / 56000 * 1000)
    ∧ |((sex_offender_data none).per_1000.getD 0) - 4107 / 10000| < 1 / 10000 := by
  refine ⟨rfl, ?_, ?_⟩
  · show some ((pyOrNat none 23 : ℚ) / (POPULATION : ℚ) * 1000) = _
    norm_num [pyOrNat, POPULATION]
  · show |((pyOrNat none 23 : ℚ) / (POPULATION : ℚ) * 1000 : ℚ) - 4107 / 10000| < 1 / 10000
    norm_num [pyOrNat, POPULATION]
    rw [abs_lt]
    constructor <;> norm_num

/-- C5 counterexample: the code does NOT preserve the distinction between
"query failed" and "queried and found zero": a successful query with zero
results yields total 23 (the failure fallback), not 0, because the Python
or operator treats 0 as falsy. -/
theorem C5_zero_count_counterexample :
    get_offender_count (some []) = some 0
    ∧ (sex_offender_data (get_offender_count (some []))).total = some 23
    ∧ (sex_offender_data (get_offender_count (some []))).total ≠ some 0 := by
  refine ⟨rfl, rfl, ?_⟩
  decide

/-- C5 amended: `get_offender_count` itself distinguishes failure (`None`)
from a successful zero count (0), but the or-23 fallback of the caller conflates
them: both yield total 23; only a successful positive count `n` flows
through as total = n. -/
theorem C5_zero_conflated (n : Nat) (h : 0 < n) :
    get_offender_count none = none
    ∧ get_offender_count (some []) = some 0
    ∧ (sex_offender_data none).total = some 23
    ∧ (sex_offender_data (some 0)).total = some 23
    ∧ (sex_offender_data (some n)).total = some n := by
  refine ⟨rfl, rfl, rfl, rfl, ?_⟩
  simp [sex_offender_data, pyOrNat, Nat.pos_iff_ne_zero.mp h]

/-- C5 witness: a successful count of 7 flows through unchanged. -/
theorem C5_zero_conflated_witness :
    0 < 7 ∧ (sex_offender_data (some 7)).total = some 7 :=
  ⟨by decide, (C5_zero_conflated 7 (by decide)).2.2.2.2⟩

/-- C8: on narrative-service failure the returned fallback narrative is a
deterministic function of the computed statistics alone and contains the
literal decimal rendering of the violent count and of the total-incidents
value. -/
theorem C8_fallback_narrative (arrests : List Arrest) (incidents : List Incident) :
    analyze_crime_data_fallback arrests incidents
      = fallback_analysis (analyzeTotalIncidents incidents) (analyzeViolentCount arrests)
    ∧ decStr (analyzeViolentCount arrests) <:+: analyze_crime_data_fallback arrests incidents
    ∧ decStr (analyzeTotalIncidents incidents) <:+: analyze_crime_data_fallback arrests incidents := by
  refine ⟨rfl, ?_, ?_⟩
  · exact ⟨fbSeg1, fbSeg2 ++ decStr (analyzeTotalIncidents incidents) ++ fbSeg3, by
      simp [analyze_crime_data_fallback, fallback_analysis, List.append_assoc]⟩
  · exact ⟨fbSeg1 ++ decStr (analyzeViolentCount arrests) ++ fbSeg2, fbSeg3, by
      simp [analyze_crime_data_fallback, fallback_analysis, List.append_assoc]⟩

/-- C10: when the category of every record was assigned by the categorizer
from its charge (as main does), the substring-based counts of the narrative
builder equal the recomputed per-category counts of the aggregator. -/
theorem C10_counts_agree (cd : CrimeData)
    (h : ∀ a ∈ cd.arrests, a.category = some (categorize_crime (a.charge.getD []))) :
    analyzeViolentCount cd.arrests = (calculate_stats cd).violent_crime
    ∧ analyzePropertyCount cd.arrests = (calculate_stats cd).property_crime := by
  constructor
  · unfold analyzeViolentCount calculate_stats
    apply List.countP_congr
    intro a ha
    rw [h a ha, Option.getD_some, (substr_category_eq _ (categorize_mem _)).1]
  · unfold analyzePropertyCount calculate_stats
    apply List.countP_congr
    intro a ha
    rw [h a ha, Option.getD_some, (substr_category_eq _ (categorize_mem _)).2]

/-- C10 witness: a categorized two-record list has matching counts. -/
theorem C10_counts_agree_witness :
    (∀ a ∈ (⟨categorizeAll
        [{ charge := some (("armed robbery").data) },
         { charge := some (("petty theft").data) }], []⟩ : CrimeData).arrests,
      a.category = some (categorize_crime (a.charge.getD [])))
    ∧ analyzeViolentCount (⟨categorizeAll
        [{ charge := some (("armed robbery").data) },
         { charge := some (("petty theft").data) }], []⟩ : CrimeData).arrests
      = (calculate_stats (⟨categorizeAll
          [{ charge := some (("armed robbery").data) },
           { charge := some (("petty theft").data) }], []⟩ : CrimeData)).violent_crime := by
  refine ⟨by decide, ?_⟩
  exact (C10_counts_agree _ (by decide)).1

/-- Congruence for rowsConcat. -/
lemma rowsConcat_congr (f g : α → Str) :
    ∀ l : List α, (∀ x ∈ l, f x = g x) → rowsConcat f l = rowsConcat g l := by
  intro l
  induction l with
  | nil => intro _; rfl
  | cons x l ih =>
    intro h
    rw [rowsConcat, rowsConcat, h x (List.mem_cons_self x l),
      ih (fun y hy => h y (List.mem_cons_of_mem x hy))]

/-- C7: an empty arrest list renders exactly the no-data placeholder row;
any arrest list renders the same as its first ten records, namely one row
per record in input order; a missing field renders as "N/A". -/
theorem C7_arrests_table_spec :
    generate_arrests_table [] = noArrestRow
    ∧ (∀ arrests : List Arrest,
        generate_arrests_table arrests = generate_arrests_table (arrests.take 10))
    ∧ (∀ arrests : List Arrest, arrests ≠ [] →
        generate_arrests_table arrests = rowsConcat arrestRow (arrests.take 10))
    ∧ (∀ a : Arrest, (a.date = none ∨ a.name = none ∨ a.city = none ∨ a.charge = none) →
        naStr <:+: arrestRow a) := by
  refine ⟨rfl, ?_, ?_, ?_⟩
  · intro arrests
    cases arrests with
    | nil => rfl
    | cons a l =>
      unfold generate_arrests_table
      rw [List.take_take]
      rfl
  · intro arrests h
    unfold generate_arrests_table
    rw [if_neg (by simpa [List.isEmpty_iff] using h), foldl_append_rows, List.nil_append]
  · intro a h
    rcases h with h | h | h | h
    · exact ⟨rowA, rowB ++ (a.name.getD naStr) ++ rowB ++ (a.city.getD naStr) ++ rowB ++
        (a.charge.getD naStr) ++ rowC, by simp [arrestRow, h, List.append_assoc]⟩
    · exact ⟨rowA ++ (a.date.getD naStr) ++ rowB, rowB ++ (a.city.getD naStr) ++ rowB ++
        (a.charge.getD naStr) ++ rowC, by simp [arrestRow, h, List.append_assoc]⟩
    · exact ⟨rowA ++ (a.date.getD naStr) ++ rowB ++ (a.name.getD naStr) ++ rowB,
        rowB ++ (a.charge.getD naStr) ++ rowC, by simp [arrestRow, h, List.append_assoc]⟩
    · exact ⟨rowA ++ (a.date.getD naStr) ++ rowB ++ (a.name.getD naStr) ++ rowB ++
        (a.city.getD naStr) ++ rowB, rowC, by simp [arrestRow, h, List.append_assoc]⟩

/-- C7 witness: an eleven-record list renders exactly the rows of its
first ten records, and a record with a missing date shows N/A. -/
theorem C7_arrests_table_spec_witness :
    (List.replicate 11 ({ name := some (("JOHN").data) } : Arrest) ≠ [])
    ∧ generate_arrests_table (List.replicate 11 ({ name := some (("JOHN").data) } : Arrest))
        = rowsConcat arrestRow ((List.replicate 11 ({ name := some (("JOHN").data) } : Arrest)).take 10)
    ∧ naStr <:+: arrestRow ({ name := some (("JOHN").data) } : Arrest) := by
  refine ⟨by decide, C7_arrests_table_spec.2.2.1 _ (by decide),
    C7_arrests_table_spec.2.2.2 _ (Or.inl rfl)⟩

/-- C9: every stub the incident extractor produces has `parsed = false`,
populates only `raw` and `parsed` (date/type/location absent), and hence
every rendered incident-table row for a non-empty extracted list shows
N/A in the date, type and location columns. -/
theorem C9_incident_stubs (lines : List Str) :
    (∀ i ∈ parse_incidents_pdf lines,
        i.parsed = some false ∧ i.date = none ∧ i.type = none ∧ i.location = none
          ∧ ∃ line ∈ lines, i.raw = some line ∧ hasDateToken line = true)
    ∧ (parse_incidents_pdf lines ≠ [] →
        generate_incidents_table (parse_incidents_pdf lines)
          = rowsConcat (fun _ => naOnlyIncidentRow) ((parse_incidents_pdf lines).take 10)) := by
  have hfields : ∀ i ∈ parse_incidents_pdf lines,
      i.parsed = some false ∧ i.date = none ∧ i.type = none ∧ i.location = none
        ∧ ∃ line ∈ lines, i.raw = some line ∧ hasDateToken line = true := by
    intro i hi
    unfold parse_incidents_pdf at hi
    rw [List.mem_filterMap] at hi
    obtain ⟨line, hline, hif⟩ := hi
    by_cases hd : hasDateToken line = true
    · rw [if_pos hd] at hif
      cases hif
      exact ⟨rfl, rfl, rfl, rfl, line, hline, rfl, hd⟩
    · rw [if_neg hd] at hif
      cases hif
  refine ⟨hfields, ?_⟩
  intro hne
  unfold generate_incidents_table
  rw [if_neg (by simpa [List.isEmpty_iff] using hne), foldl_append_rows, List.nil_append]
  apply rowsConcat_congr
  intro i hi
  have hf := hfields i (List.take_subset 10 _ hi)
  rw [incidentRow, hf.2.1, hf.2.2.1, hf.2.2.2.1]
  rfl

/-- C9 witness: a single date-bearing line yields one stub and a table of
exactly one all-N/A row. -/
theorem C9_incident_stubs_witness :
    parse_incidents_pdf [("1/2 theft on Main St").data] ≠ []
    ∧ generate_incidents_table (parse_incidents_pdf [("1/2 theft on Main St").data])
        = rowsConcat (fun _ => naOnlyIncidentRow)
            ((parse_incidents_pdf [("1/2 theft on Main St").data]).take 10) := by
  exact ⟨by decide, (C9_incident_stubs _).2 (by decide)⟩

/-- C2 counterexample: on the example line of the claim itself,
`3/1 JOHN DOE Madison burglary` the extractor does NOT match the
multi-word name greedily: the produced record has name "JOHN" (not
"JOHN DOE"), city "DOE" (not "Madison"), charge "Madison burglary" (not
"burglary"), because the name group `([A-Z\s]+?)` is lazy. -/
theorem C2_lazy_name_counterexample :
    parse_arrests_pdf [("3/1 JOHN DOE Madison burglary").data]
      = [{ date := some (("3/1").data), name := some (("JOHN").data),
           city := some (("DOE").data), charge := some (("Madison burglary").data) }]
    ∧ (parse_arrests_pdf [("3/1 JOHN DOE Madison burglary").data]).map (fun a => a.name)
      ≠ [some (("JOHN DOE").data)] := by
  constructor
  · decide
  · decide

/-- C2 amended: the name run is matched lazily (shortest first), so on a
line `date SPACE W1 SPACE W2 SPACE rest` whose intended name spans the two
uppercase words W1 and W2, the extractor produces name = W1 only, the
second name word W2 as the city, and the stripped remainder (which starts
with the intended city token) as the charge. -/
theorem C2_arrest_line_lazy (d1 d2 u x rc : Char) (w1' w2' rest' : Str)
    (hd1 : isDigitPy d1 = true) (hd2 : isDigitPy d2 = true)
    (hw1 : ∀ c ∈ u :: w1', isUpperPy c = true)
    (hw2 : ∀ c ∈ x :: w2', isWordPy c = true)
    (hrc : isSpacePy rc = false) (hrcd : isDotPy rc = true)
    (hrest : ∀ c ∈ rest', isDotPy c = true) :
    matchArrest (d1 :: '/' :: d2 :: ' ' ::
        ((u :: w1') ++ ' ' :: ((x :: w2') ++ ' ' :: (rc :: rest'))))
      = some ⟨[d1, '/', d2], u :: w1', x :: w2', rc :: rest'⟩
    ∧ arrestOfMatch ⟨[d1, '/', d2], u :: w1', x :: w2', rc :: rest'⟩
      = { date := some [d1, '/', d2], name := some (u :: w1'), city := some (x :: w2'),
          charge := some (pyStrip (rc :: rest')) } := by
  have hsl : isDigitPy '/' = false := by decide
  have hspd : isDigitPy ' ' = false := by decide
  have hwsp : isWordPy ' ' = false := by decide
  constructor
  · unfold matchArrest
    simp only [rep12, hd1, hd2, hsl, hspd, if_pos rfl, if_neg, Bool.false_eq_true,
      not_false_eq_true, if_false, beq_self_eq_true]
    apply plusGreedy_skip isSpacePy _ [' '] u _ _ (by decide) (by simp)
      (upper_not_space u (hw1 u (List.mem_cons_self u w1')))
    show plusLazy isNameChar ((u :: w1') ++ ' ' :: ((x :: w2') ++ ' ' :: (rc :: rest'))) _
      = _
    apply plusLazy_word isNameChar _
      (fun acc c rest h => plusGreedy_head_false isSpacePy c rest _ (upper_not_space c h))
      upper_isNameChar (u :: w1') _ _ hw1 (by simp)
    show plusGreedy isSpacePy (' ' :: ((x :: w2') ++ ' ' :: (rc :: rest'))) _ = _
    apply plusGreedy_skip isSpacePy _ [' '] x _ _ (by decide) (by simp)
      (word_not_space x (hw2 x (List.mem_cons_self x w2')))
    show plusGreedy isWordPy ((x :: w2') ++ ' ' :: (rc :: rest')) _ = _
    apply plusGreedy_skip isWordPy _ (x :: w2') ' ' _ _ hw2 (by simp) hwsp
    show plusGreedy isSpacePy (' ' :: (rc :: rest')) _ = _
    apply plusGreedy_skip isSpacePy _ [' '] rc _ _ (by decide) (by simp) hrc
    show plusGreedy isDotPy (rc :: rest') _ = _
    apply plusGreedy_all isDotPy _ (rc :: rest') _
      (fun c hc => by
        rcases List.mem_cons.mp hc with rfl | hc
        · exact hrcd
        · exact hrest c hc)
      (by simp)
    rfl
  · unfold arrestOfMatch
    have hdate : pyStrip [d1, '/', d2] = [d1, '/', d2] := by
      apply pyStrip_no_space
      intro c hc
      rcases List.mem_cons.mp hc with rfl | hc
      · exact digit_not_space c hd1
      · rcases List.mem_cons.mp hc with rfl | hc
        · decide
        · rcases List.mem_cons.mp hc with rfl | hc
          · exact digit_not_space c hd2
          · cases hc
    have hname : pyStrip (u :: w1') = u :: w1' :=
      pyStrip_no_space _ (fun c hc => upper_not_space c (hw1 c hc))
    have hcity : pyStrip (x :: w2') = x :: w2' :=
      pyStrip_no_space _ (fun c hc => word_not_space c (hw2 c hc))
    rw [hdate, hname, hcity]

/-- C2 witness: the amended behaviour at the example line of the claim. -/
theorem C2_arrest_line_lazy_witness :
    matchArrest (("3/1 JOHN DOE Madison burglary").data)
      = some ⟨("3/1").data, ("JOHN").data, ("DOE").data, ("Madison burglary").data⟩ := by
  have h := (C2_arrest_line_lazy '3' '1' 'J' 'D' 'M'
    (("OHN").data) (("OE").data) (("adison burglary").data)
    (by decide) (by decide) (by decide) (by decide)
    (by decide) (by decide) (by decide)).1
  exact h

set_option maxRecDepth 100000 in
/-- C6 counterexample: a template containing each of the ten placeholders
exactly once for which the rendered output still contains a `{{...}}`
token: the arrests table is substituted last, so the `{{DATE}}` text
carried by the charge field survives in the output unreplaced. -/
theorem C6_token_left_counterexample :
    (allTokens.all fun t => occCount t cexTemplate == 1) = true
    ∧ isSubstr tokDATE
        (generate_dashboard cexTemplate (("March 01, 2026").data) (("ok").data)
          cexCrimeData (sex_offender_data none)) = true := by
  constructor
  · decide
  · decide

/-- C6 amended: for every template decomposing into brace-free literal
chunks interleaved with placeholder tokens drawn from the ten (each may
occur any number of times, in particular exactly once), and for
brace-free date, narrative and record-field strings, the renderer
replaces every token occurrence by its exact computed value (the output
is the piecewise substitution of the template) and the output contains no
occurrence of any of the ten `{{...}}` tokens. -/
theorem C6_dashboard_render (ps : List TPiece) (dateStr analysis : Str)
    (cd : CrimeData) (sexData : SexOffenderData)
    (hok : ps.all pieceOK = true)
    (hdate : braceFree dateStr = true) (hana : braceFree analysis = true)
    (harr : cd.arrests.all arrestBF = true) (hinc : cd.incidents.all incidentBF = true) :
    generate_dashboard (flattenPieces ps) dateStr analysis cd sexData
      = flattenPieces (ps.map (substPiece dateStr analysis cd sexData))
    ∧ braceFree (generate_dashboard (flattenPieces ps) dateStr analysis cd sexData) = true
    ∧ ∀ t ∈ allTokens,
        isSubstr t (generate_dashboard (flattenPieces ps) dateStr analysis cd sexData)
          = false := by
  have hchain := chainReplace_flatten (dashboardPVs dateStr analysis cd sexData) ps
    (dashboardPVs_ok dateStr analysis cd sexData hdate hana harr hinc) hok
  have heq : generate_dashboard (flattenPieces ps) dateStr analysis cd sexData
      = flattenPieces (ps.map (substPiece dateStr analysis cd sexData)) := by
    rw [generate_dashboard_eq_chain, hchain.1,
      chainPieces_dashboard dateStr analysis cd sexData ps hok]
  have hbf : braceFree (flattenPieces (ps.map (substPiece dateStr analysis cd sexData)))
      = true := by
    apply flattenPieces_braceFree
    intro p hp
    rw [List.mem_map] at hp
    obtain ⟨q, hq, rfl⟩ := hp
    have hqok := List.all_eq_true.mp hok q hq
    cases q with
    | chunk s => exact ⟨s, rfl, hqok⟩
    | tok t =>
      have ht : t ∈ allTokens := by
        simp only [pieceOK, List.any_eq_true, beq_iff_eq] at hqok
        obtain ⟨w, hw, rfl⟩ := hqok
        exact hw
      have hany : (allTokens.any fun w => w == t) = true := by
        simp only [List.any_eq_true, beq_iff_eq]
        exact ⟨t, ht, rfl⟩
      refine ⟨tokenValue dateStr analysis cd sexData t, ?_,
        tokenValue_braceFree dateStr analysis cd sexData hdate hana harr hinc t ht⟩
      simp [substPiece, hany]
  refine ⟨heq, ?_, ?_⟩
  · rw [heq]; exact hbf
  · intro t ht
    rw [heq]
    exact braceFree_no_token _ hbf t ht

/-- C6 witness: a concrete template holding each placeholder once, with
brace-free data, renders to the piecewise substitution and retains no
token. -/
theorem C6_dashboard_render_witness :
    isSubstr tokDATE
      (generate_dashboard
        (flattenPieces
          [TPiece.chunk (("<html>").data), TPiece.tok tokDATE,
           TPiece.chunk ((" ").data), TPiece.tok tokTOTAL_INCIDENTS,
           TPiece.chunk ((" ").data), TPiece.tok tokTOTAL_ARRESTS,
           TPiece.chunk ((" ").data), TPiece.tok tokPROPERTY_CRIME,
           TPiece.chunk ((" ").data), TPiece.tok tokVIOLENT_CRIME,
           TPiece.chunk ((" ").data), TPiece.tok tokCHANGE_PERCENT,
           TPiece.chunk ((" ").data), TPiece.tok tokSEX_OFFENDER_COUNT,
           TPiece.chunk ((" ").data), TPiece.tok tokBOTTOM_LINE_ANALYSIS,
           TPiece.chunk ((" ").data), TPiece.tok tokINCIDENTS_TABLE,
           TPiece.chunk ((" ").data), TPiece.tok tokARRESTS_TABLE,
           TPiece.chunk (("</html>").data)])
        (("March 01, 2026").data) (("All quiet.").data)
        ⟨[{ date := some (("3/1").data), name := some (("JOHN").data),
            city := some (("Madison").data), charge := some (("burglary").data) }], []⟩
        (sex_offender_data none)) = false := by
  exact (C6_dashboard_render _ _ _ _ _ (by decide) (by decide) (by decide)
    (by decide) (by decide)).2.2 tokDATE (by simp [allTokens])

end Newsletter
